import Mathlib

/-!
# Verification of pvc-autoscaler-openshift against its specification

Shallow embedding of the repository's Go sources:

* `internal/metrics_clients/prometheus/prometheus.go` — the Prometheus
  metrics client (`NewPrometheusClient`, `bearerTokenRoundTripper.RoundTrip`,
  `FetchPVCsMetrics`, `getMetricValues`);
* `cmd/metrics.go` — `MetricsClientFactory`;
* `main` (startup sequence and the reconciliation ticker loop).

The external Prometheus HTTP API is modelled as a function
`api : String → Int → Except String PromValue` (query text and evaluation
timestamp to either a transport/query error or a `model.Value`).  The
filesystem read used for the bearer token file is modelled as a function
`readFile : String → Except String String`.
-/

/-- `k8s.io/apimachinery/pkg/types.NamespacedName`. -/
structure NamespacedName where
  namespc : String
  name : String
deriving DecidableEq, Repr

/-- `clients.PVCMetrics` — used bytes and capacity bytes for one PVC. -/
structure PVCMetrics where
  VolumeUsedBytes : Int
  VolumeCapacityBytes : Int
deriving DecidableEq, Repr

/-- A Prometheus sample's label set (`model.Metric`), as a string-keyed
association list.  A missing label reads as `""`, matching Go's map
zero value in `string(val.Metric["namespace"])`. -/
def labelGet (metric : List (String × String)) (key : String) : String :=
  match metric with
  | [] => ""
  | (k, v) :: rest => if k = key then v else labelGet rest key

/-- One element of a `model.Vector` (`model.Sample`): a label set and a
numeric value (the Go code converts `val.Value` with `int64(...)`). -/
structure Sample where
  metric : List (String × String)
  value : Int
deriving DecidableEq, Repr

/-- `model.Value`: the possible Prometheus query result types. -/
inductive PromValue where
  | vector (samples : List Sample)
  | scalar (v : Int)
  | matrix
  | str (s : String)
deriving DecidableEq, Repr

/-- `res.Type().String()` for each `model.Value` variant. -/
def PromValue.typeString : PromValue → String
  | .vector _ => "vector"
  | .scalar _ => "scalar"
  | .matrix => "matrix"
  | .str _ => "string"

/-- Association-list lookup (Go map read, e.g. `capacityBytes[key]` or
`req.Header.Get`). -/
def lookupKey {α β : Type} [DecidableEq α] (k : α) :
    List (α × β) → Option β
  | [] => none
  | (k', v) :: rest => if k' = k then some v else lookupKey k rest

/-- Go map insert (e.g. `resultMap[nn] = val`, `req.Header.Set`): a later
write to the same key overwrites the earlier one. -/
def mapInsert {α β : Type} [DecidableEq α] (m : List (α × β)) (k : α)
    (v : β) : List (α × β) :=
  (k, v) :: m.filter (fun p => p.1 ≠ k)

/-- The `NamespacedName` built from one sample:
`{Namespace: string(val.Metric["namespace"]), Name: string(val.Metric["persistentvolumeclaim"])}`. -/
def sampleKey (s : Sample) : NamespacedName :=
  ⟨labelGet s.metric "namespace", labelGet s.metric "persistentvolumeclaim"⟩

/-- The loop of `getMetricValues` that fills `resultMap` from the vector. -/
def buildMap (samples : List Sample) : List (NamespacedName × Int) :=
  samples.foldl (fun m s => mapInsert m (sampleKey s) s.value) []

/-- The fixed used-bytes query name (`usedBytesQuery`). -/
def usedBytesQuery : String := "kubelet_volume_stats_used_bytes"

/-- The fixed capacity-bytes query name (`capacityBytesQuery`). -/
def capacityBytesQuery : String := "kubelet_volume_stats_capacity_bytes"

/-- `(c *PrometheusClient) getMetricValues`: run one query; a transport
error fails; a non-vector result is the "unknown response type" error;
a vector is folded into a map keyed by `(namespace, persistentvolumeclaim)`. -/
def getMetricValues (api : String → Int → Except String PromValue)
    (query : String) (time : Int) :
    Except String (List (NamespacedName × Int)) :=
  match api query time with
  | .error e => .error e
  | .ok res =>
    match res with
    | .vector vec => .ok (buildMap vec)
    | other => .error ("unknown response type: " ++ other.typeString)

/-- The join loop of `FetchPVCsMetrics`: iterate the used-bytes map; a key
missing from the capacity-bytes map is skipped (`continue`); otherwise the
pair of values is recorded. -/
def joinMetrics (used cap : List (NamespacedName × Int)) :
    List (NamespacedName × PVCMetrics) :=
  used.filterMap (fun p =>
    match lookupKey p.1 cap with
    | some cb => some (p.1, ⟨p.2, cb⟩)
    | none => none)

/-- `(c *PrometheusClient) FetchPVCsMetrics`: two `getMetricValues` calls
(used bytes, then capacity bytes), each propagating its error; on success
the two maps are joined by volume identity.  The second component records
the queries issued, in order, for the exactly-two-queries property. -/
def FetchPVCsMetrics (api : String → Int → Except String PromValue)
    (when : Int) :
    Except String (List (NamespacedName × PVCMetrics)) × List String :=
  match getMetricValues api usedBytesQuery when with
  | .error e => (.error e, [usedBytesQuery])
  | .ok usedBytes =>
    match getMetricValues api capacityBytesQuery when with
    | .error e => (.error e, [usedBytesQuery, capacityBytesQuery])
    | .ok capacityBytes =>
      (.ok (joinMetrics usedBytes capacityBytes),
        [usedBytesQuery, capacityBytesQuery])

example :
    FetchPVCsMetrics
      (fun q _ =>
        if q = usedBytesQuery then
          .ok (.vector [⟨[("namespace", "default"), ("persistentvolumeclaim", "mypvc")], 80⟩])
        else
          .ok (.vector [⟨[("namespace", "default"), ("persistentvolumeclaim", "mypvc")], 100⟩]))
      0 =
    (.ok [(⟨"default", "mypvc"⟩, ⟨80, 100⟩)],
      [usedBytesQuery, capacityBytesQuery]) := by
  rfl

/-! ## Decision Engine (spec §4.3)

The Decision Engine's source is not under `src/` (only the metrics client,
the client factory, the logger and `main` are), so it is modelled from the
specification text. -/

/-- One gibibyte, `2^30` bytes. -/
def gib : Int := 2 ^ 30

/-- Ceiling of a rational as an integer, computed from the reduced
numerator and denominator (`⌈q⌉ = -⌊-q⌋`, with `/` the floor division of
integers by a positive denominator). -/
def qCeil (q : ℚ) : Int := -(-q.num / (q.den : Int))

/-- Modelled from the spec: "round up to the next multiple of 2^30 bytes"
(§4.3 step 6, glossary "Gibibyte rounding").  `Rat.divInt q.num ((q.den) * gib)`
is exactly `q / 2^30`. -/
def roundUpToGiB (q : ℚ) : Int := gib * qCeil (Rat.divInt q.num ((q.den : Int) * gib))

/-- Modelled from the spec: `AutoscaleConfig` (§3); the Config Parser and
its output type are not under `src/`.  Percent fields are exact rationals
("a decimal number followed by `%`"), byte quantities are integers. -/
structure AutoscaleConfig where
  enabled : Bool
  thresholdPercent : ℚ
  increasePercent : ℚ
  ceilingBytes : Option Int
  previousCapacityBytes : Option Int
deriving DecidableEq, Repr

/-- Modelled from the spec: `UsageSample` (§3). -/
structure UsageSample where
  usedBytes : Int
  capacityBytes : Int
deriving DecidableEq, Repr

/-- Modelled from the spec: the facts about a `VolumeResource` (§3) that
the Decision Engine consumes. -/
structure VolumeResource where
  currentCapacityBytes : Int
  isBound : Bool
  expansionAllowed : Bool
  isFilesystemMode : Bool
deriving DecidableEq, Repr

/-- Modelled from the spec: the reasons of `Skip{reason}` (§4.3). -/
inductive SkipReason where
  | disabled
  | ineligible
  | noMetrics
  | resizePending
  | atCeiling
deriving DecidableEq, Repr

/-- Modelled from the spec: `Action` (§4.3).  Named `EngineAction` because
`Action` already exists in Mathlib. -/
inductive EngineAction where
  | noAction
  | resize (newCapacityBytes : Int)
  | skip (reason : SkipReason)
deriving DecidableEq, Repr

/-- Modelled from the spec: the Decision Engine's `decide` (§4.3), whose
source is not under `src/`.  The spec's real-number formulas are computed
as exact rationals: step 5's `usageRatio * 100 < thresholdPercent` is
evaluated as the equal rational comparison
`(usedBytes * 100) / capacityBytes < thresholdPercent`, and step 6's
`currentCapacityBytes * (1 + increasePercent/100)` as the equal quotient
`(currentCapacityBytes * (100 * d + n)) / (100 * d)` where `n/d` is
`increasePercent` in lowest terms (see `rawNew_eq`). -/
def decideAction (config : AutoscaleConfig) (sample : Option UsageSample)
    (resource : VolumeResource) : EngineAction :=
  if !config.enabled then .skip .disabled
  else if !(resource.isBound && resource.expansionAllowed && resource.isFilesystemMode) then
    .skip .ineligible
  else
    match sample with
    | none => .skip .noMetrics
    | some s =>
      if config.previousCapacityBytes = some resource.currentCapacityBytes then
        .skip .resizePending
      else if Rat.divInt (s.usedBytes * 100) s.capacityBytes < config.thresholdPercent then
        .noAction
      else
        let rawNew : ℚ :=
          Rat.divInt
            (resource.currentCapacityBytes *
              (100 * (config.increasePercent.den : Int) + config.increasePercent.num))
            (100 * (config.increasePercent.den : Int))
        let rounded : Int := roundUpToGiB rawNew
        let clamped : Int :=
          match config.ceilingBytes with
          | some c => min rounded c
          | none => rounded
        if clamped ≤ resource.currentCapacityBytes then .skip .atCeiling
        else .resize clamped

example :
    decideAction ⟨true, 80, 20, none, none⟩
      (some ⟨8589934592, 10737418240⟩) ⟨10737418240, true, true, true⟩ =
    .resize 12884901888 := by
  decide

example :
    decideAction ⟨true, 80, 50, some 11811160064, none⟩
      (some ⟨8589934592, 10737418240⟩) ⟨10737418240, true, true, true⟩ =
    .resize 11811160064 := by
  decide

example :
    decideAction ⟨true, 80, 20, none, none⟩
      (some ⟨8482560409, 10737418240⟩) ⟨10737418240, true, true, true⟩ =
    .noAction := by
  decide

/-! ## Lemmas about the metric maps -/

theorem lookupKey_filter_ne {α β : Type} [DecidableEq α] (m : List (α × β))
    (k k' : α) (h : k' ≠ k) :
    lookupKey k (m.filter (fun p => p.1 ≠ k')) = lookupKey k m := by
  induction m with
  | nil => rfl
  | cons p rest ih =>
    obtain ⟨a, b⟩ := p
    simp only [ne_eq, decide_not] at ih ⊢
    rw [List.filter_cons]
    by_cases ha : a = k'
    · subst ha
      have hak : a ≠ k := h
      simp [lookupKey, hak, ih]
    · by_cases hak : a = k
      · subst hak
        simp [lookupKey, ha, ih]
      · simp [lookupKey, ha, hak, ih]

theorem lookupKey_mapInsert {α β : Type} [DecidableEq α] (m : List (α × β))
    (k k' : α) (v : β) :
    lookupKey k (mapInsert m k' v) = if k' = k then some v else lookupKey k m := by
  by_cases h : k' = k
  · simp [mapInsert, lookupKey, h]
  · rw [if_neg h]
    have := lookupKey_filter_ne m k k' h
    simp only [ne_eq, decide_not] at this
    simp [mapInsert, lookupKey, h, this]

theorem lookupKey_joinMetrics (used cap : List (NamespacedName × Int))
    (k : NamespacedName) :
    lookupKey k (joinMetrics used cap) =
      match lookupKey k used, lookupKey k cap with
      | some u, some c => some ⟨u, c⟩
      | _, _ => none := by
  induction used with
  | nil => cases lookupKey k cap <;> simp [joinMetrics, lookupKey]
  | cons p rest ih =>
    obtain ⟨a, b⟩ := p
    by_cases hak : a = k
    · subst hak
      cases hc : lookupKey a cap with
      | none =>
        simp only [joinMetrics, List.filterMap_cons, hc] at ih ⊢
        simp only [lookupKey, if_pos rfl]
        rw [ih]
        cases lookupKey a rest <;> rfl
      | some cb =>
        simp only [joinMetrics, List.filterMap_cons, hc]
        simp [lookupKey]
    · cases hc : lookupKey a cap with
      | none =>
        simp only [joinMetrics, List.filterMap_cons, hc] at ih ⊢
        simpa only [lookupKey, if_neg hak] using ih
      | some cb =>
        simp only [joinMetrics, List.filterMap_cons, hc] at ih ⊢
        simpa only [lookupKey, if_neg hak] using ih

theorem lookupKey_foldl_insert (samples : List Sample)
    (acc : List (NamespacedName × Int)) (k : NamespacedName)
    (h : (lookupKey k
      (samples.foldl (fun m s => mapInsert m (sampleKey s) s.value) acc)).isSome) :
    (lookupKey k acc).isSome ∨ ∃ s ∈ samples, sampleKey s = k := by
  induction samples generalizing acc with
  | nil => exact Or.inl h
  | cons s rest ih =>
    simp only [List.foldl_cons] at h
    rcases ih (mapInsert acc (sampleKey s) s.value) h with h' | ⟨s', hs', hk⟩
    · rw [lookupKey_mapInsert] at h'
      by_cases hsk : sampleKey s = k
      · exact Or.inr ⟨s, List.mem_cons_self s rest, hsk⟩
      · rw [if_neg hsk] at h'
        exact Or.inl h'
    · exact Or.inr ⟨s', List.mem_cons_of_mem s hs', hk⟩

theorem lookupKey_buildMap_key (samples : List Sample) (k : NamespacedName)
    (h : (lookupKey k (buildMap samples)).isSome) :
    ∃ s ∈ samples, sampleKey s = k := by
  rcases lookupKey_foldl_insert samples [] k h with h' | h'
  · simp [lookupKey] at h'
  · exact h'

theorem getMetricValues_ok (api : String → Int → Except String PromValue)
    (query : String) (time : Int) (l : List (NamespacedName × Int))
    (h : getMetricValues api query time = .ok l) :
    ∃ vec, api query time = .ok (.vector vec) ∧ l = buildMap vec := by
  unfold getMetricValues at h
  cases hapi : api query time with
  | error e => rw [hapi] at h; exact absurd h (by simp)
  | ok v =>
    rw [hapi] at h
    cases v with
    | vector vec => exact ⟨vec, rfl, by simpa using h.symm⟩
    | scalar x => exact absurd h (by simp)
    | matrix => exact absurd h (by simp)
    | str s => exact absurd h (by simp)

/-! ## Claims C1–C3: `FetchPVCsMetrics` -/

/-- C1: for every pair of query results, `FetchPVCsMetrics` omits from the
returned mapping any volume identity present in the used-bytes result but
absent from the capacity-bytes result, and still returns success with the
remaining volumes, each mapped to both its used-bytes and capacity-bytes
values. -/
theorem FetchPVCsMetrics_omits_unjoined
    (api : String → Int → Except String PromValue) (when : Int)
    (used cap : List (NamespacedName × Int))
    (h1 : getMetricValues api usedBytesQuery when = .ok used)
    (h2 : getMetricValues api capacityBytesQuery when = .ok cap) :
    ∃ m, (FetchPVCsMetrics api when).1 = .ok m ∧
      ∀ k, lookupKey k m =
        match lookupKey k used, lookupKey k cap with
        | some u, some c => some ⟨u, c⟩
        | _, _ => none := by
  refine ⟨joinMetrics used cap, ?_, fun k => lookupKey_joinMetrics used cap k⟩
  simp [FetchPVCsMetrics, h1, h2]

/-- Witness for C1 at a concrete input: the used-bytes result has volumes
`a` and `b`, the capacity-bytes result only `a`; volume `b` is omitted and
`a` is mapped to both values. -/
theorem FetchPVCsMetrics_omits_unjoined_witness :
    ∃ m, (FetchPVCsMetrics
      (fun q _ =>
        if q = usedBytesQuery then
          .ok (.vector [⟨[("namespace", "ns"), ("persistentvolumeclaim", "a")], 80⟩,
                        ⟨[("namespace", "ns"), ("persistentvolumeclaim", "b")], 50⟩])
        else
          .ok (.vector [⟨[("namespace", "ns"), ("persistentvolumeclaim", "a")], 100⟩]))
      0).1 = .ok m ∧
      ∀ k, lookupKey k m =
        match lookupKey k [(⟨"ns", "b"⟩, 50), (⟨"ns", "a"⟩, 80)],
              lookupKey k [(⟨"ns", "a"⟩, 100)] with
        | some u, some c => some ⟨u, c⟩
        | _, _ => none :=
  FetchPVCsMetrics_omits_unjoined _ 0
    [(⟨"ns", "b"⟩, 50), (⟨"ns", "a"⟩, 80)] [(⟨"ns", "a"⟩, 100)] (by rfl) (by rfl)

/-- C2: if either underlying query fails, `FetchPVCsMetrics` returns that
error and no mapping (the `Except.error` result carries no mapping,
matching the Go `return nil, err`). -/
theorem FetchPVCsMetrics_whole_batch_fails
    (api : String → Int → Except String PromValue) (when : Int) :
    (∀ e, getMetricValues api usedBytesQuery when = .error e →
      (FetchPVCsMetrics api when).1 = .error e) ∧
    (∀ used e, getMetricValues api usedBytesQuery when = .ok used →
      getMetricValues api capacityBytesQuery when = .error e →
      (FetchPVCsMetrics api when).1 = .error e) := by
  constructor
  · intro e he
    simp [FetchPVCsMetrics, he]
  · intro used e hu hc
    simp [FetchPVCsMetrics, hu, hc]

/-- Witness for C2 at a concrete input: a failing transport fails the
whole batch. -/
theorem FetchPVCsMetrics_whole_batch_fails_witness :
    (FetchPVCsMetrics (fun _ _ => .error "connection refused") 0).1 =
      .error "connection refused" :=
  (FetchPVCsMetrics_whole_batch_fails (fun _ _ => .error "connection refused") 0).1
    "connection refused" (by rfl)

/-- C3: on its success path `FetchPVCsMetrics` issues exactly the two fixed
queries (used bytes, then capacity bytes); each result is keyed by the
`(namespace, persistentvolumeclaim)` identity of its samples, and the
returned mapping is the join of the two by that identity. -/
theorem FetchPVCsMetrics_exactly_two_queries
    (api : String → Int → Except String PromValue) (when : Int)
    (m : List (NamespacedName × PVCMetrics))
    (h : (FetchPVCsMetrics api when).1 = .ok m) :
    (FetchPVCsMetrics api when).2 = [usedBytesQuery, capacityBytesQuery] ∧
    usedBytesQuery = "kubelet_volume_stats_used_bytes" ∧
    capacityBytesQuery = "kubelet_volume_stats_capacity_bytes" ∧
    usedBytesQuery ≠ capacityBytesQuery ∧
    ∃ us cs, api usedBytesQuery when = .ok (.vector us) ∧
      api capacityBytesQuery when = .ok (.vector cs) ∧
      (∀ k, lookupKey k m =
        match lookupKey k (buildMap us), lookupKey k (buildMap cs) with
        | some u, some c => some ⟨u, c⟩
        | _, _ => none) ∧
      (∀ k, (lookupKey k (buildMap us)).isSome → ∃ s ∈ us, sampleKey s = k) ∧
      (∀ k, (lookupKey k (buildMap cs)).isSome → ∃ s ∈ cs, sampleKey s = k) := by
  unfold FetchPVCsMetrics at h
  cases hu : getMetricValues api usedBytesQuery when with
  | error e => rw [hu] at h; simp at h
  | ok used =>
    rw [hu] at h
    cases hc : getMetricValues api capacityBytesQuery when with
    | error e => rw [hc] at h; simp at h
    | ok cap =>
      rw [hc] at h
      simp only at h
      obtain ⟨us, hau, husd⟩ := getMetricValues_ok api usedBytesQuery when used hu
      obtain ⟨cs, hac, hcap⟩ := getMetricValues_ok api capacityBytesQuery when cap hc
      refine ⟨?_, rfl, rfl, by decide, us, cs, hau, hac, ?_, ?_, ?_⟩
      · unfold FetchPVCsMetrics
        rw [hu, hc]
      · intro k
        have hm : m = joinMetrics used cap := by
          cases h
          rfl
        rw [hm, husd, hcap]
        exact lookupKey_joinMetrics (buildMap us) (buildMap cs) k
      · intro k hk
        exact lookupKey_buildMap_key us k hk
      · intro k hk
        exact lookupKey_buildMap_key cs k hk

/-- Witness for C3 at a concrete input. -/
theorem FetchPVCsMetrics_exactly_two_queries_witness :
    (FetchPVCsMetrics
      (fun q _ =>
        if q = usedBytesQuery then
          .ok (.vector [⟨[("namespace", "ns"), ("persistentvolumeclaim", "a")], 80⟩,
                        ⟨[("namespace", "ns"), ("persistentvolumeclaim", "b")], 50⟩])
        else
          .ok (.vector [⟨[("namespace", "ns"), ("persistentvolumeclaim", "a")], 100⟩]))
      0).2 = [usedBytesQuery, capacityBytesQuery] ∧
    usedBytesQuery = "kubelet_volume_stats_used_bytes" ∧
    capacityBytesQuery = "kubelet_volume_stats_capacity_bytes" ∧
    usedBytesQuery ≠ capacityBytesQuery ∧
    ∃ us cs,
      ((fun q _ =>
        if q = usedBytesQuery then
          .ok (.vector [⟨[("namespace", "ns"), ("persistentvolumeclaim", "a")], 80⟩,
                        ⟨[("namespace", "ns"), ("persistentvolumeclaim", "b")], 50⟩])
        else
          .ok (.vector [⟨[("namespace", "ns"), ("persistentvolumeclaim", "a")], 100⟩])
        : String → Int → Except String PromValue)
        usedBytesQuery 0 = .ok (.vector us)) ∧
      ((fun q _ =>
        if q = usedBytesQuery then
          .ok (.vector [⟨[("namespace", "ns"), ("persistentvolumeclaim", "a")], 80⟩,
                        ⟨[("namespace", "ns"), ("persistentvolumeclaim", "b")], 50⟩])
        else
          .ok (.vector [⟨[("namespace", "ns"), ("persistentvolumeclaim", "a")], 100⟩])
        : String → Int → Except String PromValue)
        capacityBytesQuery 0 = .ok (.vector cs)) ∧
      (∀ k, lookupKey k [(⟨"ns", "a"⟩, (⟨80, 100⟩ : PVCMetrics))] =
        match lookupKey k (buildMap us), lookupKey k (buildMap cs) with
        | some u, some c => some ⟨u, c⟩
        | _, _ => none) ∧
      (∀ k, (lookupKey k (buildMap us)).isSome → ∃ s ∈ us, sampleKey s = k) ∧
      (∀ k, (lookupKey k (buildMap cs)).isSome → ∃ s ∈ cs, sampleKey s = k) :=
  FetchPVCsMetrics_exactly_two_queries _ 0 [(⟨"ns", "a"⟩, ⟨80, 100⟩)] (by rfl)

/-! ## Lemmas about the Decision Engine's rounding -/

theorem qCeil_eq_ceil (q : ℚ) : qCeil q = ⌈q⌉ := by
  have h : ⌊-q⌋ = (-q).num / ((-q).den : ℤ) := Rat.floor_def
  rw [Int.floor_neg, Rat.num_neg_eq_neg_num, Rat.den_neg_eq_den] at h
  unfold qCeil
  rw [← h]
  exact neg_neg _

theorem roundUpToGiB_emod (q : ℚ) : roundUpToGiB q % gib = 0 :=
  Int.mul_emod_right gib _

theorem divInt_den_gib (q : ℚ) :
    Rat.divInt q.num ((q.den : ℤ) * gib) = q / (gib : ℚ) := by
  rw [Rat.divInt_eq_div]
  push_cast
  rw [← div_div, Rat.num_div_den q]

theorem le_roundUpToGiB (q : ℚ) : q ≤ (roundUpToGiB q : ℚ) := by
  unfold roundUpToGiB
  rw [qCeil_eq_ceil, divInt_den_gib]
  have hgib : (0 : ℚ) < (gib : ℚ) := by norm_num [gib]
  have h1 : q / (gib : ℚ) ≤ (⌈q / (gib : ℚ)⌉ : ℚ) := Int.le_ceil _
  have h2 : (gib : ℚ) * (q / (gib : ℚ)) ≤ (gib : ℚ) * (⌈q / (gib : ℚ)⌉ : ℚ) :=
    mul_le_mul_of_nonneg_left h1 (le_of_lt hgib)
  rw [mul_div_cancel₀ q (ne_of_gt hgib)] at h2
  push_cast
  exact h2

theorem rawNew_eq (cur : ℤ) (inc : ℚ) :
    Rat.divInt (cur * (100 * (inc.den : ℤ) + inc.num)) (100 * (inc.den : ℤ)) =
      (cur : ℚ) * (1 + inc / 100) := by
  rw [Rat.divInt_eq_div]
  have hd : ((inc.den : ℚ)) ≠ 0 := by
    exact_mod_cast Nat.cast_ne_zero.mpr inc.den_nz
  push_cast
  rw [show (1 : ℚ) + inc / 100 = 1 + ((inc.num : ℚ) / (inc.den : ℚ)) / 100 by
    rw [Rat.num_div_den inc]]
  field_simp
  ring

/-! ## Claim C4: bounds on `Resize` actions -/

/-- C4 (counterexample): with a ceiling that is not a multiple of `2^30`
(here `2.5 GiB`), the clamp of §4.3 step 6 produces a `Resize` whose new
capacity is not a gibibyte multiple: current capacity 2 GiB, usage 100%,
increase 20% rounds up to 3 GiB and is clamped to the 2.5 GiB ceiling. -/
theorem decideAction_gib_multiple_fails :
    decideAction ⟨true, 80, 20, some 2684354560, none⟩
      (some ⟨2147483648, 2147483648⟩) ⟨2147483648, true, true, true⟩ =
      .resize 2684354560 ∧
    ¬(2684354560 : Int) % 2 ^ 30 = 0 := by
  decide

/-- C4 (amended): every `Resize` action proposes a capacity strictly
greater than the current one, never exceeding the ceiling when one is set;
the capacity is a multiple of `2^30` obtained by rounding up (hence at
least the raw linear increase) unless it is the ceiling itself, which the
clamp may select even when that ceiling is not a gibibyte multiple. -/
theorem decideAction_resize_bounds (c : AutoscaleConfig) (s : UsageSample)
    (r : VolumeResource) (n : Int)
    (h : decideAction c (some s) r = .resize n) :
    r.currentCapacityBytes < n ∧
    (∀ ceil, c.ceilingBytes = some ceil → n ≤ ceil) ∧
    ((n % 2 ^ 30 = 0 ∧
        (r.currentCapacityBytes : ℚ) * (1 + c.increasePercent / 100) ≤ (n : ℚ)) ∨
      c.ceilingBytes = some n) := by
  unfold decideAction at h
  split at h
  · exact absurd h (by simp)
  split at h
  · exact absurd h (by simp)
  split at h
  · exact absurd h (by simp)
  split at h
  · exact absurd h (by simp)
  split at h
  · exact absurd h (by simp)
  simp only at h
  rename_i hs hprev hthr
  split at h
  · exact absurd h (by simp)
  rename_i hle
  injection h with hn
  set rawNew : ℚ :=
    Rat.divInt
      (r.currentCapacityBytes *
        (100 * (c.increasePercent.den : Int) + c.increasePercent.num))
      (100 * (c.increasePercent.den : Int)) with hraw
  have hmod : roundUpToGiB rawNew % 2 ^ 30 = 0 := roundUpToGiB_emod rawNew
  have hup : (r.currentCapacityBytes : ℚ) * (1 + c.increasePercent / 100) ≤
      ((roundUpToGiB rawNew : Int) : ℚ) := by
    rw [← rawNew_eq r.currentCapacityBytes c.increasePercent]
    exact le_roundUpToGiB rawNew
  cases hceil : c.ceilingBytes with
  | none =>
    rw [hceil] at hn hle
    push_neg at hle
    have hn' : roundUpToGiB rawNew = n := hn
    have hle' : r.currentCapacityBytes < roundUpToGiB rawNew := hle
    subst hn'
    exact ⟨hle', fun ceil hc => absurd hc (by simp), Or.inl ⟨hmod, hup⟩⟩
  | some ceil =>
    rw [hceil] at hn hle
    push_neg at hle
    have hn' : min (roundUpToGiB rawNew) ceil = n := hn
    have hle' : r.currentCapacityBytes < min (roundUpToGiB rawNew) ceil := hle
    subst hn'
    refine ⟨hle', fun ceil' hc => ?_, ?_⟩
    · cases hc
      exact min_le_right _ _
    · rcases le_total (roundUpToGiB rawNew) ceil with hmin | hmin
      · rw [min_eq_left hmin]
        exact Or.inl ⟨hmod, hup⟩
      · rw [min_eq_right hmin]
        exact Or.inr rfl

/-- Witness for C4 (amended) at the spec's scenario: capacity 10 GiB,
used 8 GiB (80%), threshold 80%, increase 20%, no ceiling gives
`Resize{12 GiB}`. -/
theorem decideAction_resize_bounds_witness :
    (10737418240 : Int) < 12884901888 ∧
    (∀ ceil : Int, (none : Option Int) = some ceil → 12884901888 ≤ ceil) ∧
    (((12884901888 : Int) % 2 ^ 30 = 0 ∧
        ((10737418240 : Int) : ℚ) * (1 + (20 : ℚ) / 100) ≤ ((12884901888 : Int) : ℚ)) ∨
      (none : Option Int) = some 12884901888) :=
  decideAction_resize_bounds ⟨true, 80, 20, none, none⟩ ⟨8589934592, 10737418240⟩
    ⟨10737418240, true, true, true⟩ 12884901888 (by decide)

/-! ## `NewPrometheusClient` and the bearer-token round tripper -/

/-- The TLS guard of `NewPrometheusClient`:
`insecureSkipVerify && len(url) >= 8 && url[:8] == "https://"`. -/
def httpsPrefixCheck (url : String) : Bool :=
  decide (8 ≤ url.length) && (url.take 8 == "https://")

/-- The configuration captured by a constructed `PrometheusClient`:
the address, the transport's `TLSClientConfig.InsecureSkipVerify` flag,
and `some token` exactly when the `bearerTokenRoundTripper` wraps the
transport. -/
structure PrometheusClientConfig where
  address : String
  skipVerify : Bool
  bearerToken : Option String
deriving DecidableEq, Repr

/-- `NewPrometheusClient`:  compute `skipVerify` from the flag and the URL
scheme; if a bearer token file is named, read it — a read failure aborts
construction with an error naming the file, a successful read installs the
bearer round tripper with the file's contents.  The external
`prometheusApi.NewClient` call is modelled as always succeeding; the
properties verified here are decided before that call. -/
def NewPrometheusClient (url : String) (insecureSkipVerify : Bool)
    (bearerTokenFile : String) (readFile : String → Except String String) :
    Except String PrometheusClientConfig :=
  let skipVerify := insecureSkipVerify && httpsPrefixCheck url
  if bearerTokenFile ≠ "" then
    match readFile bearerTokenFile with
    | .error e =>
      .error ("failed to read bearer token file " ++ bearerTokenFile ++ ": " ++ e)
    | .ok token => .ok ⟨url, skipVerify, some token⟩
  else
    .ok ⟨url, skipVerify, none⟩

/-- `bearerTokenRoundTripper.RoundTrip`: set the `Authorization` header
only when the stored token is non-empty, then delegate to the wrapped
transport. -/
def bearerRoundTrip (bearerToken : String) (headers : List (String × String)) :
    List (String × String) :=
  if bearerToken ≠ "" then mapInsert headers "Authorization" ("Bearer " ++ bearerToken)
  else headers

/-- The headers an outgoing request ends up with under the configured
round tripper: through `bearerTokenRoundTripper` when installed, else
directly through the base transport, which never touches headers. -/
def outgoingHeaders (cfg : PrometheusClientConfig)
    (headers : List (String × String)) : List (String × String) :=
  match cfg.bearerToken with
  | some t => bearerRoundTrip t headers
  | none => headers

/-! ## Claims C8, C9 -/

/-- C8: a constructed client's transport skips TLS certificate
verification exactly when the `insecureSkipVerify` flag is set and the URL
begins with `"https://"` (the source's check: length at least 8 and the
first 8 bytes equal to `"https://"`); for any other URL the flag is
ignored and verification stays enabled. -/
theorem NewPrometheusClient_skipVerify (url : String) (isv : Bool)
    (btf : String) (rf : String → Except String String)
    (cfg : PrometheusClientConfig)
    (h : NewPrometheusClient url isv btf rf = .ok cfg) :
    cfg.skipVerify = (isv && httpsPrefixCheck url) ∧
    (httpsPrefixCheck url = true ↔ 8 ≤ url.length ∧ url.take 8 = "https://") ∧
    (url.take 8 ≠ "https://" → cfg.skipVerify = false) := by
  have hskip : cfg.skipVerify = (isv && httpsPrefixCheck url) := by
    unfold NewPrometheusClient at h
    split at h
    · cases hr : rf btf with
      | error e => rw [hr] at h; simp at h
      | ok tok =>
        rw [hr] at h
        cases h
        rfl
    · cases h
      rfl
  refine ⟨hskip, ?_, ?_⟩
  · constructor
    · intro hp
      unfold httpsPrefixCheck at hp
      constructor
      · have := Bool.and_elim_left hp
        exact of_decide_eq_true this
      · have := Bool.and_elim_right hp
        exact eq_of_beq this
    · rintro ⟨h1, h2⟩
      unfold httpsPrefixCheck
      rw [Bool.and_eq_true]
      exact ⟨decide_eq_true h1, beq_iff_eq.mpr h2⟩
  · intro hne
    rw [hskip]
    unfold httpsPrefixCheck
    have : (url.take 8 == "https://") = false := beq_eq_false_iff_ne.mpr hne
    rw [this]
    simp

/-- Witness for C8 at a concrete input: an `https://` URL with the flag
set yields a transport that skips verification. -/
theorem NewPrometheusClient_skipVerify_witness :
    (⟨"https://prom:9090", true, none⟩ : PrometheusClientConfig).skipVerify =
      (true && httpsPrefixCheck "https://prom:9090") ∧
    (httpsPrefixCheck "https://prom:9090" = true ↔
      8 ≤ ("https://prom:9090").length ∧ ("https://prom:9090").take 8 = "https://") ∧
    (("https://prom:9090").take 8 ≠ "https://" →
      (⟨"https://prom:9090", true, none⟩ : PrometheusClientConfig).skipVerify = false) :=
  NewPrometheusClient_skipVerify "https://prom:9090" true "" (fun _ => .ok "")
    ⟨"https://prom:9090", true, none⟩ (by rfl)

/-- C9 (counterexample): a bearer token file that is readable but empty is
"read successfully", yet `bearerTokenRoundTripper.RoundTrip` adds no
`Authorization` header (its guard requires a non-empty token), so not
every outgoing request carries `Authorization: Bearer <token>`. -/
theorem NewPrometheusClient_bearer_fails :
    NewPrometheusClient "http://prom:9090" false "/var/run/token"
      (fun _ => .ok "") = .ok ⟨"http://prom:9090", false, some ""⟩ ∧
    outgoingHeaders ⟨"http://prom:9090", false, some ""⟩ [] = [] ∧
    lookupKey "Authorization"
      (outgoingHeaders ⟨"http://prom:9090", false, some ""⟩ []) = none := by
  refine ⟨by rfl, by rfl, by rfl⟩

/-- C9 (amended): if a non-empty bearer token file path is given and the
read fails, `NewPrometheusClient` returns an error naming the file and no
client; if the read succeeds, the round tripper is installed with the
file's contents and every outgoing request carries
`Authorization: Bearer <token>` provided the token is non-empty (an empty
file installs the wrapper but adds no header); if the path is empty, no
wrapper is installed and requests pass through unchanged. -/
theorem NewPrometheusClient_bearer_token (url : String) (isv : Bool)
    (btf : String) (rf : String → Except String String) :
    (∀ e, btf ≠ "" → rf btf = .error e →
      NewPrometheusClient url isv btf rf =
        .error ("failed to read bearer token file " ++ btf ++ ": " ++ e)) ∧
    (∀ tok, btf ≠ "" → rf btf = .ok tok →
      ∃ cfg, NewPrometheusClient url isv btf rf = .ok cfg ∧
        cfg.bearerToken = some tok ∧
        (tok ≠ "" → ∀ hs, lookupKey "Authorization" (outgoingHeaders cfg hs) =
          some ("Bearer " ++ tok)) ∧
        (tok = "" → ∀ hs, outgoingHeaders cfg hs = hs)) ∧
    (∃ cfg, NewPrometheusClient url isv "" rf = .ok cfg ∧
      cfg.bearerToken = none ∧ ∀ hs, outgoingHeaders cfg hs = hs) := by
  refine ⟨?_, ?_, ?_⟩
  · intro e hbtf hr
    unfold NewPrometheusClient
    rw [if_pos hbtf, hr]
  · intro tok hbtf hr
    refine ⟨⟨url, isv && httpsPrefixCheck url, some tok⟩, ?_, rfl, ?_, ?_⟩
    · unfold NewPrometheusClient
      rw [if_pos hbtf, hr]
    · intro htok hs
      simp only [outgoingHeaders, bearerRoundTrip, if_pos htok]
      rw [lookupKey_mapInsert]
      simp
    · intro htok hs
      simp [outgoingHeaders, bearerRoundTrip, htok]
  · refine ⟨⟨url, isv && httpsPrefixCheck url, none⟩, ?_, rfl, fun hs => rfl⟩
    unfold NewPrometheusClient
    simp

/-- Witness for C9 (amended) at a concrete input: a readable token file
with contents `"secret"`. -/
theorem NewPrometheusClient_bearer_token_witness :
    ∃ cfg, NewPrometheusClient "https://prom:9090" false "/var/run/token"
        (fun _ => .ok "secret") = .ok cfg ∧
      cfg.bearerToken = some "secret" ∧
      ("secret" ≠ "" → ∀ hs, lookupKey "Authorization" (outgoingHeaders cfg hs) =
        some ("Bearer " ++ "secret")) ∧
      ("secret" = "" → ∀ hs, outgoingHeaders cfg hs = hs) :=
  (NewPrometheusClient_bearer_token "https://prom:9090" false "/var/run/token"
    (fun _ => .ok "secret")).2.1 "secret" (by decide) (by rfl)

/-! ## `MetricsClientFactory` and `main`'s startup (claims C5–C7) -/

/-- `MetricsClientFactory` (`cmd/metrics.go`): `"prometheus"` delegates to
`NewPrometheusClient` and propagates its error; any other client name is
the "unknown metrics client" error.  `main` passes the bearer token file
path through; `readFile` models the filesystem read. -/
def MetricsClientFactory (clientName clientUrl : String)
    (insecureSkipVerify : Bool) (bearerTokenFile : String)
    (readFile : String → Except String String) :
    Except String PrometheusClientConfig :=
  match clientName with
  | "prometheus" =>
    match NewPrometheusClient clientUrl insecureSkipVerify bearerTokenFile readFile with
    | .error e => .error e
    | .ok prometheusClient => .ok prometheusClient
  | _ => .error ("unknown metrics client: " ++ clientName)

/-- The outcome of `main`'s startup sequence: `logger.Logger.Fatalf`
terminates the process, so a fatal outcome never reaches the ticker loop. -/
inductive StartupOutcome where
  | fatal (msg : String)
  | entersLoop (client : PrometheusClientConfig)
deriving DecidableEq, Repr

/-- `main`'s startup: a Kubernetes client construction failure is fatal; a
metrics client factory failure is fatal; otherwise the process proceeds to
the reconciliation ticker loop.  `kubeRes` abstracts the result of
`newKubeClient()`, whose source is not under `src/`. -/
def mainStartup (kubeRes : Except String Unit) (clientName clientUrl : String)
    (insecureSkipVerify : Bool) (bearerTokenFile : String)
    (readFile : String → Except String String) : StartupOutcome :=
  match kubeRes with
  | .error e =>
    .fatal ("an error occurred while creating the Kubernetes client: " ++ e)
  | .ok _ =>
    match MetricsClientFactory clientName clientUrl insecureSkipVerify
        bearerTokenFile readFile with
    | .error e => .fatal ("metrics client error: " ++ e)
    | .ok mc => .entersLoop mc

/-- C5: a Kubernetes client construction failure is fatal; for any client
name other than `"prometheus"` the factory returns the error naming the
client and startup is fatal; whenever the factory errors, the process never
enters the reconciliation ticker loop. -/
theorem startup_failures_fatal (k : Except String Unit) (name url : String)
    (isv : Bool) (btf : String) (rf : String → Except String String) :
    (∀ e, mainStartup (.error e) name url isv btf rf =
      .fatal ("an error occurred while creating the Kubernetes client: " ++ e)) ∧
    (name ≠ "prometheus" →
      MetricsClientFactory name url isv btf rf =
        .error ("unknown metrics client: " ++ name) ∧
      mainStartup (.ok ()) name url isv btf rf =
        .fatal ("metrics client error: " ++ ("unknown metrics client: " ++ name))) ∧
    (∀ e, MetricsClientFactory name url isv btf rf = .error e →
      ∀ mc, mainStartup k name url isv btf rf ≠ .entersLoop mc) := by
  refine ⟨fun e => rfl, fun hname => ?_, fun e hf mc => ?_⟩
  · have hfac : MetricsClientFactory name url isv btf rf =
        .error ("unknown metrics client: " ++ name) := by
      unfold MetricsClientFactory
      split
      · exact absurd rfl hname
      · rfl
    refine ⟨hfac, ?_⟩
    unfold mainStartup
    rw [hfac]
  · cases k with
    | error e' => intro hc; exact absurd hc (by simp [mainStartup])
    | ok u =>
      cases u
      intro hc
      unfold mainStartup at hc
      rw [hf] at hc
      exact absurd hc (by simp)

/-- Witness for C5 at a concrete input: the client name `"graphite"`. -/
theorem startup_failures_fatal_witness :
    MetricsClientFactory "graphite" "http://x" false "" (fun _ => .ok "") =
      .error ("unknown metrics client: " ++ "graphite") ∧
    mainStartup (.ok ()) "graphite" "http://x" false "" (fun _ => .ok "") =
      .fatal ("metrics client error: " ++ ("unknown metrics client: " ++ "graphite")) :=
  (startup_failures_fatal (.ok ()) "graphite" "http://x" false ""
    (fun _ => .ok "")).2.1 (by decide)

/-! ## The reconciliation ticker loop (claims C6, C7) -/

/-- One observable event of `main`'s `for range ticker.C` loop: per tick
the loop creates a context carrying the reconcile-timeout deadline, runs
`pvcAutoscaler.reconcile(ctx)`, logs the error if the call returned one,
and cancels the context. -/
inductive MainEv where
  | ctxCreate (cycle : Nat) (timeoutDeadline : Nat)
  | reconcileDone (cycle : Nat) (err : Option String)
  | logError (cycle : Nat) (msg : String)
  | ctxCancel (cycle : Nat)
deriving DecidableEq, Repr

/-- The body of the `i`-th iteration of the ticker loop.  `rec i` is the
result of the `i`-th `reconcile` call (`none` = success): the error, when
present, is logged (`logger.Errorf`) and the iteration then completes with
`cancel()` in either case. -/
def tickBody (rec : Nat → Option String) (timeout : Nat) (i : Nat) : List MainEv :=
  [.ctxCreate i timeout, .reconcileDone i (rec i)] ++
    (match rec i with
     | some e => [.logError i e]
     | none => []) ++
    [.ctxCancel i]

/-- The trace of the first `n` iterations of the ticker loop.  The Go
loop is a single sequential `for range ticker.C` in one goroutine, so
iteration `i + 1` begins only after iteration `i` has completed. -/
def mainLoop (rec : Nat → Option String) (timeout : Nat) : Nat → List MainEv
  | 0 => []
  | n + 1 => mainLoop rec timeout n ++ tickBody rec timeout n

/-! ### Lemmas about the loop trace -/

theorem tickBody_core_sublist (rec : Nat → Option String) (t i : Nat) :
    List.Sublist [MainEv.ctxCreate i t, .reconcileDone i (rec i), .ctxCancel i]
      (tickBody rec t i) := by
  unfold tickBody
  cases rec i with
  | none => simp
  | some e =>
    simp only [List.cons_append, List.nil_append]
    exact .cons₂ _ (.cons₂ _ (.cons _ (.refl _)))

theorem tickBody_create_cancel_sublist (rec : Nat → Option String) (t i : Nat) :
    List.Sublist [MainEv.ctxCreate i t, .ctxCancel i] (tickBody rec t i) := by
  unfold tickBody
  cases rec i with
  | none =>
    simp only [List.cons_append, List.nil_append]
    exact .cons₂ _ (.cons _ (.refl _))
  | some e =>
    simp only [List.cons_append, List.nil_append]
    exact .cons₂ _ (.cons _ (.cons _ (.refl _)))

theorem mainLoop_mono (rec : Nat → Option String) (t : Nat) {m n : Nat}
    (h : m ≤ n) : List.Sublist (mainLoop rec t m) (mainLoop rec t n) := by
  induction n with
  | zero =>
    rw [Nat.le_zero.mp h]
  | succ n ih =>
    rcases Nat.lt_or_ge m (n + 1) with hlt | hge
    · have : List.Sublist (mainLoop rec t n) (mainLoop rec t (n + 1)) := by
        rw [mainLoop]
        exact List.sublist_append_left _ _
      exact (ih (Nat.lt_succ_iff.mp hlt)).trans this
    · rw [Nat.le_antisymm h hge]

theorem tickBody_sublist_mainLoop (rec : Nat → Option String) (t : Nat)
    {i n : Nat} (h : i < n) : List.Sublist (tickBody rec t i) (mainLoop rec t n) := by
  have h1 : List.Sublist (tickBody rec t i) (mainLoop rec t (i + 1)) := by
    rw [mainLoop]
    exact List.sublist_append_right _ _
  exact h1.trans (mainLoop_mono rec t h)

theorem count_tickBody_create (rec : Nat → Option String) (t j i : Nat) :
    (tickBody rec t j).count (MainEv.ctxCreate i t) = if j = i then 1 else 0 := by
  by_cases hij : j = i
  · subst hij
    cases hj : rec j <;> simp [tickBody, hj, List.count_cons, List.count_append]
  · cases hj : rec j <;> simp [tickBody, hj, hij, List.count_cons, List.count_append]

theorem count_tickBody_cancel (rec : Nat → Option String) (t j i : Nat) :
    (tickBody rec t j).count (MainEv.ctxCancel i) = if j = i then 1 else 0 := by
  by_cases hij : j = i
  · subst hij
    cases hj : rec j <;> simp [tickBody, hj, List.count_cons, List.count_append]
  · cases hj : rec j <;> simp [tickBody, hj, hij, List.count_cons, List.count_append]

theorem count_mainLoop_create (rec : Nat → Option String) (t n i : Nat) :
    (mainLoop rec t n).count (MainEv.ctxCreate i t) = if i < n then 1 else 0 := by
  induction n with
  | zero => simp [mainLoop]
  | succ n ih =>
    rw [mainLoop, List.count_append, ih, count_tickBody_create]
    rcases Nat.lt_trichotomy i n with h | h | h
    · rw [if_pos h, if_neg (by omega), if_pos (by omega)]
    · rw [if_neg (by omega), if_pos (by omega), if_pos (by omega)]
    · rw [if_neg (by omega), if_neg (by omega), if_neg (by omega)]

theorem count_mainLoop_cancel (rec : Nat → Option String) (t n i : Nat) :
    (mainLoop rec t n).count (MainEv.ctxCancel i) = if i < n then 1 else 0 := by
  induction n with
  | zero => simp [mainLoop]
  | succ n ih =>
    rw [mainLoop, List.count_append, ih, count_tickBody_cancel]
    rcases Nat.lt_trichotomy i n with h | h | h
    · rw [if_pos h, if_neg (by omega), if_pos (by omega)]
    · rw [if_neg (by omega), if_pos (by omega), if_pos (by omega)]
    · rw [if_neg (by omega), if_neg (by omega), if_neg (by omega)]

/-- C6: a cycle whose reconcile call returns an error does not crash the
process: within that iteration the error is logged and the context is
still cancelled, and the next scheduled tick runs its own cycle
unchanged. -/
theorem reconcile_error_logged_loop_continues (rec : Nat → Option String)
    (t n : Nat) (e : String) (h : rec n = some e) :
    mainLoop rec t (n + 2) =
      mainLoop rec t n ++
        ([.ctxCreate n t, .reconcileDone n (some e), .logError n e, .ctxCancel n] ++
          tickBody rec t (n + 1)) := by
  rw [mainLoop, mainLoop, List.append_assoc]
  congr 1
  congr 1
  simp [tickBody, h]

/-- Witness for C6 at a concrete input: every reconcile call fails, yet
two full cycles run. -/
theorem reconcile_error_logged_loop_continues_witness :
    mainLoop (fun _ => some "boom") 7 2 =
      mainLoop (fun _ => some "boom") 7 0 ++
        ([.ctxCreate 0 7, .reconcileDone 0 (some "boom"), .logError 0 "boom",
          .ctxCancel 0] ++ tickBody (fun _ => some "boom") 7 1) :=
  reconcile_error_logged_loop_continues (fun _ => some "boom") 7 0 "boom" rfl

/-- C7: reconciliation cycles are driven sequentially by the single
ticker and never overlap: each cycle `i` of the trace creates its context
with the reconcile-timeout deadline, completes its reconcile call, and
cancels its context, exactly once each; and cycle `i`'s cancellation
precedes cycle `i + 1`'s context creation. -/
theorem cycles_sequential_nonoverlapping (rec : Nat → Option String)
    (t n i : Nat) :
    (i < n →
      List.Sublist [MainEv.ctxCreate i t, .reconcileDone i (rec i), .ctxCancel i]
        (mainLoop rec t n) ∧
      (mainLoop rec t n).count (MainEv.ctxCreate i t) = 1 ∧
      (mainLoop rec t n).count (MainEv.ctxCancel i) = 1) ∧
    (i + 1 < n →
      List.Sublist [MainEv.ctxCreate i t, .ctxCancel i,
        .ctxCreate (i + 1) t, .ctxCancel (i + 1)] (mainLoop rec t n)) := by
  constructor
  · intro h
    refine ⟨(tickBody_core_sublist rec t i).trans
      (tickBody_sublist_mainLoop rec t h), ?_, ?_⟩
    · rw [count_mainLoop_create, if_pos h]
    · rw [count_mainLoop_cancel, if_pos h]
  · intro h
    have h2 : List.Sublist
        ([MainEv.ctxCreate i t, .ctxCancel i] ++
          [MainEv.ctxCreate (i + 1) t, .ctxCancel (i + 1)])
        (tickBody rec t i ++ tickBody rec t (i + 1)) :=
      (tickBody_create_cancel_sublist rec t i).append
        (tickBody_create_cancel_sublist rec t (i + 1))
    have h4 : mainLoop rec t (i + 2) =
        mainLoop rec t i ++ (tickBody rec t i ++ tickBody rec t (i + 1)) := by
      rw [mainLoop, mainLoop, List.append_assoc]
    have h5 : List.Sublist (tickBody rec t i ++ tickBody rec t (i + 1))
        (mainLoop rec t (i + 2)) := by
      rw [h4]
      exact List.sublist_append_right _ _
    exact h2.trans (h5.trans (mainLoop_mono rec t h))

/-- Witness for C7 at a concrete input: two successful cycles. -/
theorem cycles_sequential_nonoverlapping_witness :
    (List.Sublist [MainEv.ctxCreate 0 9, .reconcileDone 0 none, .ctxCancel 0]
        (mainLoop (fun _ => none) 9 2) ∧
      (mainLoop (fun _ => none) 9 2).count (MainEv.ctxCreate 0 9) = 1 ∧
      (mainLoop (fun _ => none) 9 2).count (MainEv.ctxCancel 0) = 1) ∧
    List.Sublist [MainEv.ctxCreate 0 9, .ctxCancel 0, .ctxCreate 1 9, .ctxCancel 1]
      (mainLoop (fun _ => none) 9 2) :=
  ⟨(cycles_sequential_nonoverlapping (fun _ => none) 9 2 0).1 (by decide),
    (cycles_sequential_nonoverlapping (fun _ => none) 9 2 0).2 (by decide)⟩

/-- C10: even when the query succeeds at the transport level,
`getMetricValues` returns the "unknown response type" error whenever the
result is not a vector, and `FetchPVCsMetrics` therefore fails the whole
batch on any non-vector response (in either position) rather than
processing it. -/
theorem getMetricValues_unknown_response
    (api : String → Int → Except String PromValue) (when : Int) :
    (∀ q v, api q when = .ok v → (∀ samples, v ≠ .vector samples) →
      getMetricValues api q when =
        .error ("unknown response type: " ++ v.typeString)) ∧
    (∀ v, api usedBytesQuery when = .ok v → (∀ samples, v ≠ .vector samples) →
      (FetchPVCsMetrics api when).1 =
        .error ("unknown response type: " ++ v.typeString)) ∧
    (∀ us v, api usedBytesQuery when = .ok (.vector us) →
      api capacityBytesQuery when = .ok v → (∀ samples, v ≠ .vector samples) →
      (FetchPVCsMetrics api when).1 =
        .error ("unknown response type: " ++ v.typeString)) := by
  have hgm : ∀ q v, api q when = .ok v → (∀ samples, v ≠ .vector samples) →
      getMetricValues api q when =
        .error ("unknown response type: " ++ v.typeString) := by
    intro q v hapi hnv
    unfold getMetricValues
    rw [hapi]
    cases v with
    | vector samples => exact absurd rfl (hnv samples)
    | scalar x => rfl
    | matrix => rfl
    | str s => rfl
  refine ⟨hgm, ?_, ?_⟩
  · intro v hapi hnv
    have h1 := hgm usedBytesQuery v hapi hnv
    simp [FetchPVCsMetrics, h1]
  · intro us v hu hc hnv
    have h1 : getMetricValues api usedBytesQuery when = .ok (buildMap us) := by
      unfold getMetricValues
      rw [hu]
    have h2 := hgm capacityBytesQuery v hc hnv
    simp [FetchPVCsMetrics, h1, h2]

/-- Witness for C10 at a concrete input: a scalar response fails the
batch with the "unknown response type" error. -/
theorem getMetricValues_unknown_response_witness :
    (FetchPVCsMetrics (fun _ _ => .ok (.scalar 42)) 0).1 =
      .error ("unknown response type: " ++ (PromValue.scalar 42).typeString) :=
  (getMetricValues_unknown_response (fun _ _ => .ok (.scalar 42)) 0).2.1
    (.scalar 42) rfl (fun s h => by cases h)
